import Mathlib

/-! The tus helper supervisor of lfs-test-server (`tus.go`)

A shallow embedding of `TusServer` and its four methods `Start`, `Stop`,
`Create` and `Finish`, run one call at a time.

What the Go code reaches outside itself is made explicit:

* the global `Config` is a parameter (`Configuration`);
* the operating system and the network are an `Env`: the temp directory, the
  verdict of `url.Parse`, whether the helper can be launched, and the answer of
  `http.Client.Do` to a request;
* the content store is a `ContentStore`, the answer of its `Put`;
* the disk is a `FileSystem`, a finite table from cleaned paths to regular
  files and directories. `os.Stat` and `os.Open` succeed on both, `os.Remove`
  deletes a file or an empty directory and fails on a directory with entries,
  and nobody else changes the disk during a call;
* every call to a collaborator is recorded, in order, as an `Event`.

The mutex is not part of the sequential model: every method is one atomic
step here.  The goroutines that relay the helper's output are outside it too.
-/

namespace LfsTus

/-! ## Strings, paths and headers (Go standard library) -/

/-- Pieces of a character list between occurrences of `sep`; never empty. -/
def splitChars (sep : Char) : List Char → List (List Char)
  | [] => [[]]
  | c :: cs =>
    if c = sep then [] :: splitChars sep cs
    else
      match splitChars sep cs with
      | [] => [[c]]
      | p :: ps => (c :: p) :: ps

/-- Go `strings.Split(s, sep)` for a separator of one ASCII character. -/
def stringsSplit (s : String) (sep : Char) : List String :=
  (splitChars sep s.data).map String.mk

/-- One element of a path under `filepath.Clean`; `stack` holds the kept
elements, the latest first. -/
def cleanStep (rooted : Bool) (stack : List (List Char)) (el : List Char) :
    List (List Char) :=
  if el = [] ∨ el = ['.'] then stack
  else if el = ['.', '.'] then
    match stack with
    | [] => if rooted then [] else [el]
    | top :: rest => if top = ['.', '.'] then el :: stack else rest
  else el :: stack

/-- Go `filepath.Clean` on a Unix path. -/
def filepathClean (path : String) : String :=
  if path.data = [] then "."
  else
    let rooted : Bool := path.data.head? = some '/'
    let kept := ((splitChars '/' path.data).foldl (cleanStep rooted) []).reverse
    let body := String.mk (List.intercalate ['/'] kept)
    if rooted then "/" ++ body
    else if kept = [] then "."
    else body

/-- Go `filepath.Join(a, b)` on Unix: the elements from the first non-empty
one on are joined by `/` and cleaned. -/
def filepathJoin (a b : String) : String :=
  if a ≠ "" then filepathClean (a ++ "/" ++ b)
  else if b ≠ "" then filepathClean b
  else ""

/-- The byte `'0' + d` of a decimal digit. -/
def digitChar (d : Nat) : Char := Char.ofNat (48 + d)

/-- The digit loop of Go `fmt` for base 10: while `u >= 10` the digit
`u - (u/10)*10` is written in front of what is there and `u` becomes `u/10`;
the last digit is `u` itself. `fuel` bounds the number of rounds. -/
def fmtDigits : Nat → Nat → List Char → List Char
  | 0, u, acc => digitChar u :: acc
  | fuel + 1, u, acc =>
    if 10 ≤ u then fmtDigits fuel (u / 10) (digitChar (u - u / 10 * 10) :: acc)
    else digitChar u :: acc

/-- Go `fmt.Sprintf("%d", n)` for an integer: the digits of the magnitude,
after a minus sign when `n` is negative. -/
def fmtD (n : Int) : String :=
  match n with
  | .ofNat u => ⟨fmtDigits u u []⟩
  | .negSucc u => ⟨'-' :: fmtDigits (u + 1) (u + 1) []⟩

/-- Go `http.Header`: canonical key to the list of its values. -/
abbrev Header := List (String × List String)

/-- Go `Header.Get` for a key already in canonical form: the first value
stored under the key, or the empty string. -/
def Header.Get (h : Header) (key : String) : String :=
  match h.lookup key with
  | some (v :: _) => v
  | _ => ""

/-- Go `Header.Set` for a key already in canonical form: the key now has
exactly the one value. -/
def Header.Set (h : Header) (key value : String) : Header :=
  (key, [value]) :: h.filter (fun kv => kv.1 ≠ key)

/-- Whether the header has an entry for the key. -/
def Header.Has (h : Header) (key : String) : Bool :=
  (h.lookup key).isSome

/-! ## Data model -/

/-- Go `error` values the code produces or passes on. -/
inductive GoError where
  | errorf (msg : String)
  | pathError (op path msg : String)
  | other (msg : String)
deriving DecidableEq, Repr

/-- The fields of the global `Config` that `tus.go` reads. -/
structure Configuration where
  TusHost : String
  TusBehindProxy : String
  TusExtOrigin : String
deriving DecidableEq, Repr

/-- Go `exec.Cmd` as built by `exec.Command(name, args...)`. -/
structure Cmd where
  name : String
  args : List String
deriving DecidableEq, Repr

/-- The inbound `*http.Request`; only its header is read. -/
structure Request where
  Header : Header
deriving DecidableEq, Repr

/-- The outbound request handed to `http.Client.Do`. -/
structure HttpRequest where
  Method : String
  URL : String
  Header : Header
deriving DecidableEq, Repr

/-- The `*http.Response` fields that `Create` reads. -/
structure Response where
  StatusCode : Int
  Header : Header
deriving DecidableEq, Repr

/-- A freshly allocated `http.Client` with every field at its zero value. -/
structure HttpClient where
deriving DecidableEq, Repr

/-- The metadata handed to the content store. -/
structure MetaObject where
  Oid : String
  Size : Int
  Existing : Bool
deriving DecidableEq, Repr

/-- What a path on the disk names: a regular file with its bytes, or a
directory with the size `stat` reports for it. -/
inductive Node where
  | file (content : List UInt8)
  | dir (size : Int)
deriving DecidableEq, Repr

/-- The content store at its interface: what `Put(meta, file)` answers for the
metadata and the opened file (`none` is a nil error). -/
structure ContentStore where
  Put : MetaObject → Node → Option GoError

/-- The disk: cleaned absolute or relative paths and what they name. -/
abbrev FileSystem := List (String × Node)

/-- What the path names, if anything. -/
def FileSystem.node (fs : FileSystem) (path : String) : Option Node :=
  List.lookup path fs

/-- How launching the helper inside the goroutine of `Start` went. -/
inductive Launch where
  | ok
  | stdoutPipeFailed (err : String)
  | stderrPipeFailed (err : String)
  | startFailed (err : String)
deriving DecidableEq, Repr

/-- The world outside the process. -/
structure Env where
  TempDir : String
  urlParse : String → Option GoError
  launch : Cmd → Launch
  Do : HttpRequest → Except GoError Response

/-- The calls a method makes to its collaborators, in order. -/
inductive Event where
  | log (fn msg : String)
  | exec (cmd : Cmd)
  | kill (cmd : Cmd)
  | httpDo (req : HttpRequest)
  | stat (path : String)
  | fileOpen (path : String)
  | fileClose (path : String)
  | remove (path : String)
  | put (o : MetaObject) (f : Node)
deriving DecidableEq, Repr

/-- The struct `TusServer` without its mutex. A nil pointer or nil map is
`none`. -/
structure TusServer where
  tusProcess : Option Cmd
  dataPath : String
  tusBaseUrl : String
  httpClient : Option HttpClient
  oidToTusUrl : Option (String → Option String)

/-- The zero value the package variable `tusServer` starts from. -/
def TusServer.zero : TusServer :=
  ⟨none, "", "", none, none⟩

/-- How a call ended: it returned `val`, leaving the receiver as `t`, or the
process panicked. `events` are the collaborator calls made on the way. -/
inductive Outcome (α : Type) where
  | returned (val : α) (t : TusServer) (events : List Event)
  | panicked (msg : String) (events : List Event)

/-- The events of a call, however it ended. -/
def Outcome.events {α : Type} : Outcome α → List Event
  | .returned _ _ ev => ev
  | .panicked _ ev => ev

/-- Reading a Go map: a nil map has no entries. -/
def mapGet (m : Option (String → Option String)) (key : String) : Option String :=
  match m with
  | none => none
  | some f => f key

/-- The map after `m[key] = value`. -/
def mapSet (f : String → Option String) (key value : String) : String → Option String :=
  fun k => if k = key then some value else f k

/-- Whether the second list begins with the first. -/
def startsWith : List Char → List Char → Bool
  | [], _ => true
  | _ :: _, [] => false
  | p :: ps, c :: cs => p = c && startsWith ps cs

/-- Whether `path` lies below the directory `dir`. -/
def isUnder (dir path : String) : Bool :=
  path ≠ dir && startsWith (if dir = "/" then ['/'] else dir.data ++ ['/']) path.data

/-- Whether anything on the disk lies below `dir`. -/
def hasEntries (fs : FileSystem) (dir : String) : Bool :=
  fs.any (fun kv => isUnder dir kv.1)

/-- Go `os.Stat`: the size of what the path names, a directory included, or a
path error when nothing is there. -/
def osStat (fs : FileSystem) (path : String) : Except GoError Int :=
  match fs.node path with
  | some (.file content) => .ok content.length
  | some (.dir size) => .ok size
  | none => .error (.pathError "stat" path "no such file or directory")

/-- Go `os.Open`: a handle on what the path names, a directory included, or a
path error when nothing is there. -/
def osOpen (fs : FileSystem) (path : String) : Except GoError Node :=
  match fs.node path with
  | some n => .ok n
  | none => .error (.pathError "open" path "no such file or directory")

/-- The disk without the path. -/
def erasePath (path : String) : FileSystem → FileSystem
  | [] => []
  | (k, n) :: rest =>
    if k = path then erasePath path rest else (k, n) :: erasePath path rest

/-- Go `os.Remove`, its error dropped as the code drops it: a regular file or
an empty directory is deleted; a directory with entries, or a path that names
nothing, leaves the disk as it is. -/
def osRemove (fs : FileSystem) (path : String) : FileSystem :=
  match fs.node path with
  | none => fs
  | some (.file _) => erasePath path fs
  | some (.dir _) => if hasEntries fs path then fs else erasePath path fs

/-! ## The methods -/

/-- Lines 38-46 of `Start`: host and port out of the configured `host:port`. -/
def hostPort (TusHost : String) : String × String :=
  let hostparts := stringsSplit TusHost ':'
  let host := "localhost"
  let port := "1080"
  let host := if h : 0 < hostparts.length then hostparts[0] else host
  let port := if h : 1 < hostparts.length then hostparts[1] else port
  (host, port)

/-- Lines 48-59 of `Start`: the command line of the helper. -/
def tusCommand (Config : Configuration) (dataPath : String) : Cmd :=
  let hp := hostPort Config.TusHost
  if Config.TusBehindProxy = "true" then
    ⟨"tusd", ["-upload-dir", dataPath, "-host", hp.1, "-port", hp.2, "-behind-proxy"]⟩
  else
    ⟨"tusd", ["-upload-dir", dataPath, "-host", hp.1, "-port", hp.2]⟩

/-- The method `Start`. A failure inside the launching goroutine panics, which
ends the process. -/
def TusServer.Start (t : TusServer) (Config : Configuration) (env : Env) : Outcome Unit :=
  if t.tusProcess.isSome then .returned () t []
  else
    let dataPath := filepathJoin env.TempDir "lfs_tusserver"
    let cmd := tusCommand Config dataPath
    match env.launch cmd with
    | .stdoutPipeFailed err => .panicked ("Error getting tus server stdout: " ++ err) []
    | .stderrPipeFailed err => .panicked ("Error getting tus server stderr: " ++ err) []
    | .startFailed err => .panicked ("Error starting tus server: " ++ err) []
    | .ok =>
      .returned ()
        { tusProcess := some cmd
          dataPath := dataPath
          tusBaseUrl := Config.TusExtOrigin ++ "/files/"
          httpClient := some {}
          oidToTusUrl := some (fun _ => none) }
        [.exec cmd, .log "Start" "Tus server started"]

/-- The method `Stop`. -/
def TusServer.Stop (t : TusServer) : Outcome Unit :=
  match t.tusProcess with
  | some cmd =>
    .returned () { t with tusProcess := none } [.kill cmd, .log "Stop" "Tus server stopped"]
  | none => .returned () t [.log "Stop" "Tus server stopped"]

/-- Lines 127-137 of `Create`: the headers put on the outbound request. -/
def createHeader (Config : Configuration) (oid : String) (size : Int) (r : Request) : Header :=
  let h : Header := []
  let h := h.Set "Tus-Resumable" "1.0.0"
  let h := h.Set "Upload-Length" (fmtD size)
  let h := h.Set "Upload-Metadata" ("oid " ++ oid)
  if Config.TusBehindProxy = "true" then
    let xForwardedHost := r.Header.Get "X-Forwarded-Host"
    let xForwardedProto := r.Header.Get "X-Forwarded-Proto"
    let xForwardedPort := r.Header.Get "X-Forwarded-Port"
    let h := h.Set "X-Forwarded-Host" xForwardedHost
    let h := h.Set "X-Forwarded-Proto" xForwardedProto
    let h := h.Set "X-Forwarded-Port" xForwardedPort
    h
  else h

/-- The request `Create` hands to the client when `http.NewRequest` accepts
the URL. -/
def createRequest (t : TusServer) (Config : Configuration) (oid : String) (size : Int)
    (r : Request) : HttpRequest :=
  ⟨"POST", t.tusBaseUrl, createHeader Config oid size r⟩

/-- The method `Create`; the value is the pair `(string, error)`. -/
def TusServer.Create (t : TusServer) (Config : Configuration) (env : Env) (oid : String)
    (size : Int) (r : Request) : Outcome (String × Option GoError) :=
  let tusPath := t.tusBaseUrl
  let method := "POST"
  let log1 := Event.log "Create"
    ("Creating " ++ method ++ " tus upload for oid " ++ oid ++ " at " ++ tusPath)
  match env.urlParse tusPath with
  | some err => .returned ("", some err) t [log1]
  | none =>
    let req := createRequest t Config oid size r
    let log2 := Event.log "Create" ("Upload-Metadata: " ++ req.Header.Get "Upload-Metadata")
    match t.httpClient with
    | none => .panicked "invalid memory address or nil pointer dereference" [log1, log2]
    | some _ =>
      match env.Do req with
      | .error err => .returned ("", some err) t [log1, log2, .httpDo req]
      | .ok res =>
        if res.StatusCode ≠ 201 then
          .returned
            ("", some (.errorf ("Expected tus status code 201, got " ++ fmtD res.StatusCode)))
            t [log1, log2, .httpDo req]
        else
          let loc := res.Header.Get "Location"
          if loc.length = 0 then
            .returned ("", some (.errorf "Missing Location header in tus response"))
              t [log1, log2, .httpDo req]
          else
            match t.oidToTusUrl with
            | none => .panicked "assignment to entry in nil map" [log1, log2, .httpDo req]
            | some m =>
              .returned (loc, none) { t with oidToTusUrl := some (mapSet m oid loc) }
                [log1, log2, .httpDo req]

/-- The method `Finish`; the value is the returned error and the file system
the call leaves behind. -/
def TusServer.Finish (t : TusServer) (oid : String) (store : ContentStore)
    (fs : FileSystem) : Outcome (Option GoError × FileSystem) :=
  match mapGet t.oidToTusUrl oid with
  | none => .returned (some (.errorf ("Unable to find upload for " ++ oid)), fs) t []
  | some loc =>
    let parts := stringsSplit loc '/'
    match parts[parts.length - 1]? with
    | none => .panicked "index out of range" []
    | some last =>
      let filename := filepathJoin t.dataPath last
      match osStat fs filename with
      | .error err => .returned (some err, fs) t [.stat filename]
      | .ok size =>
        let o : MetaObject := ⟨oid, size, false⟩
        match osOpen fs filename with
        | .error err => .returned (some err, fs) t [.stat filename, .fileOpen filename]
        | .ok f =>
          match store.Put o f with
          | some err =>
            .returned (some err, fs) t
              [.stat filename, .fileOpen filename, .put o f, .fileClose filename]
          | none =>
            let info := filepathJoin t.dataPath (last ++ ".info")
            .returned (none, osRemove (osRemove fs filename) info) t
              [.stat filename, .fileOpen filename, .put o f, .remove filename, .remove info,
               .fileClose filename]

/-! ## Observations on event lists -/

/-- The calls to the store's `Put` among the events. -/
def putCalls : List Event → List (MetaObject × Node)
  | [] => []
  | .put o c :: rest => (o, c) :: putCalls rest
  | _ :: rest => putCalls rest

/-- The requests handed to the HTTP client among the events. -/
def httpCalls : List Event → List HttpRequest
  | [] => []
  | .httpDo q :: rest => q :: httpCalls rest
  | _ :: rest => httpCalls rest

/-- The helper processes launched among the events. -/
def execCalls : List Event → List Cmd
  | [] => []
  | .exec c :: rest => c :: execCalls rest
  | _ :: rest => execCalls rest

/-- The log lines among the events, as pairs of function tag and message. -/
def logLines : List Event → List (String × String)
  | [] => []
  | .log fn msg :: rest => (fn, msg) :: logLines rest
  | _ :: rest => logLines rest

/-- The file-system calls (stat, open, close, remove) among the events. -/
def fsCalls : List Event → List Event
  | [] => []
  | .stat p :: rest => .stat p :: fsCalls rest
  | .fileOpen p :: rest => .fileOpen p :: fsCalls rest
  | .fileClose p :: rest => .fileClose p :: fsCalls rest
  | .remove p :: rest => .remove p :: fsCalls rest
  | _ :: rest => fsCalls rest

/-! ## States the four methods can produce -/

/-- What `Start` establishes and nothing undoes: a receiver with an HTTP
client has a registry, and its base URL is the configured origin followed by
`/files/`. -/
def Inv (Config : Configuration) (t : TusServer) : Prop :=
  t.httpClient.isSome = true →
    t.oidToTusUrl.isSome = true ∧ t.tusBaseUrl = Config.TusExtOrigin ++ "/files/"

/-- The receivers reachable from the zero value by calls that returned, under
one configuration and any behaviour of the outside world. -/
inductive Reachable (Config : Configuration) : TusServer → Prop where
  | zero : Reachable Config TusServer.zero
  | start (t t' : TusServer) (env : Env) (ev : List Event) :
      Reachable Config t → t.Start Config env = .returned () t' ev → Reachable Config t'
  | stop (t t' : TusServer) (ev : List Event) :
      Reachable Config t → t.Stop = .returned () t' ev → Reachable Config t'
  | create (t t' : TusServer) (env : Env) (oid : String) (size : Int) (r : Request)
      (val : String × Option GoError) (ev : List Event) :
      Reachable Config t → t.Create Config env oid size r = .returned val t' ev →
      Reachable Config t'
  | finish (t t' : TusServer) (oid : String) (store : ContentStore) (fs : FileSystem)
      (val : Option GoError × FileSystem) (ev : List Event) :
      Reachable Config t → t.Finish oid store fs = .returned val t' ev → Reachable Config t'

/-! ## A concrete scenario -/

/-- A receiver as `Start` leaves it under origin `http://host`, with one
session registered for `oid1`. -/
def demoServer : TusServer :=
  { tusProcess := some ⟨"tusd", ["-upload-dir", "/tmp/lfs_tusserver", "-host", "localhost",
      "-port", "1080"]⟩
    dataPath := "/tmp/lfs_tusserver"
    tusBaseUrl := "http://host/files/"
    httpClient := some {}
    oidToTusUrl := some (fun k => if k = "oid1" then some "http://host/files/abc123" else none) }

/-- The configuration `demoServer` was started under. -/
def demoConfig : Configuration :=
  ⟨"localhost:1080", "true", "http://host"⟩

/-- A data directory holding the finished upload `abc123` of ten bytes and its
sidecar. -/
def demoFiles : FileSystem :=
  [("/tmp", .dir 4096), ("/tmp/lfs_tusserver", .dir 4096),
    ("/tmp/lfs_tusserver/abc123", .file [1, 2, 3, 4, 5, 6, 7, 8, 9, 10]),
    ("/tmp/lfs_tusserver/abc123.info", .file [123, 125])]

/-- The disk `demoFiles` once `abc123` and its sidecar are deleted. -/
def demoFilesAfter : FileSystem :=
  [("/tmp", .dir 4096), ("/tmp/lfs_tusserver", .dir 4096)]

/-- A receiver like `demoServer` whose registered location ends in a slash,
so that its last piece is empty. -/
def slashServer : TusServer :=
  { demoServer with
    oidToTusUrl := some (fun k => if k = "oid1" then some "http://host/files/" else none) }

/-- An inbound request with two values for one forwarding header and none for
another. -/
def multiRequest : Request :=
  ⟨[("X-Forwarded-Host", ["a.example.org", "b.example.org"]),
    ("X-Forwarded-Proto", ["https"])]⟩

/-- A store that accepts every write. -/
def acceptingStore : ContentStore := ⟨fun _ _ => none⟩

/-- A store that rejects every write. -/
def rejectingStore : ContentStore := ⟨fun _ _ => some (.other "disk full")⟩

/-- A helper that answers every creation with 201 and a location. -/
def createdEnv : Env :=
  ⟨"/tmp", fun _ => none, fun _ => .ok,
    fun _ => .ok ⟨201, [("Location", ["http://host/files/xyz789"])]⟩⟩

/-- A helper that answers every creation with 200. -/
def badStatusEnv : Env :=
  ⟨"/tmp", fun _ => none, fun _ => .ok, fun _ => .ok ⟨200, []⟩⟩

/-- An inbound request that came through a proxy. -/
def demoRequest : Request :=
  ⟨[("X-Forwarded-Host", ["lfs.example.org"]), ("X-Forwarded-Proto", ["https"])]⟩

/-- Whether `os.Remove` leaves nothing at the path: it names nothing, a
regular file, or a directory without entries. -/
def deletable (fs : FileSystem) (path : String) : Bool :=
  match fs.node path with
  | some (.dir _) => !hasEntries fs path
  | _ => true

/-- The decimal rendering of an integer, in the words of the spec: the base-10
digits of its magnitude, most significant first, `0` for zero, after a minus
sign when it is negative. -/
def decimalRendering (n : Int) : String :=
  let ds := if n.natAbs = 0 then ['0'] else ((Nat.digits 10 n.natAbs).reverse.map digitChar)
  if n < 0 then ⟨'-' :: ds⟩ else ⟨ds⟩

/-- A file name proper: not empty, without a slash, and neither `.` nor `..`. -/
def plainName (name : String) : Prop :=
  name.data ≠ [] ∧ '/' ∉ name.data ∧ name.data ≠ ['.'] ∧ name.data ≠ ['.', '.']


/-! ## Auxiliary facts -/

theorem splitChars_ne_nil (sep : Char) (l : List Char) : splitChars sep l ≠ [] := by
  induction l with
  | nil => simp [splitChars]
  | cons c cs ih =>
    unfold splitChars
    split
    · simp
    · split <;> simp

theorem stringsSplit_ne_nil (s : String) (sep : Char) : stringsSplit s sep ≠ [] := by
  simp [stringsSplit, splitChars_ne_nil]

/-- The index expression `parts[len(parts)-1]` of `Finish` reads the last
piece. -/
theorem stringsSplit_last_index (s : String) (sep : Char) :
    (stringsSplit s sep)[(stringsSplit s sep).length - 1]? = (stringsSplit s sep).getLast? :=
  (List.getLast?_eq_getElem? _).symm

theorem stringsSplit_getLast_isSome (s : String) (sep : Char) :
    ∃ last, (stringsSplit s sep).getLast? = some last := by
  cases h : stringsSplit s sep with
  | nil => exact absurd h (stringsSplit_ne_nil s sep)
  | cons a l => exact ⟨_, List.getLast?_eq_getLast _ (by simp)⟩

theorem string_length_eq_zero (s : String) : s.length = 0 ↔ s = "" := by
  cases s with
  | mk d =>
    constructor
    · intro h
      have hd : d = [] := List.length_eq_zero.mp h
      subst hd
      rfl
    · intro h
      rw [h]
      rfl

/-! ## Facts about the disk -/

theorem node_erasePath (fs : FileSystem) (p q : String) :
    FileSystem.node (erasePath p fs) q = if q = p then none else fs.node q := by
  induction fs with
  | nil => simp [erasePath, FileSystem.node, List.lookup]
  | cons kv rest ih =>
    obtain ⟨k, v⟩ := kv
    unfold FileSystem.node at ih ⊢
    by_cases hk : k = p
    · subst hk
      unfold erasePath
      rw [if_pos rfl, ih]
      by_cases hq : q = k
      · rw [if_pos hq, if_pos hq]
      · have hqk : (q == k) = false := by simpa using hq
        rw [if_neg hq, if_neg hq]
        simp [List.lookup, hqk]
    · unfold erasePath
      rw [if_neg hk]
      by_cases hq : q = k
      · subst hq
        rw [if_neg hk]
        simp [List.lookup]
      · have hqk : (q == k) = false := by simpa using hq
        simp only [List.lookup, hqk]
        exact ih

theorem mem_erasePath (fs : FileSystem) (p : String) (kv : String × Node)
    (h : kv ∈ erasePath p fs) : kv ∈ fs := by
  induction fs with
  | nil => simp [erasePath] at h
  | cons x rest ih =>
    obtain ⟨k, v⟩ := x
    unfold erasePath at h
    split at h
    · exact List.mem_cons_of_mem _ (ih h)
    · rcases List.mem_cons.mp h with h1 | h1
      · rw [h1]
        exact List.mem_cons_self _ _
      · exact List.mem_cons_of_mem _ (ih h1)

/-- After `os.Remove` a path names what it named before, or nothing. -/
theorem node_osRemove (fs : FileSystem) (p q : String) :
    (osRemove fs p).node q = fs.node q ∨ (osRemove fs p).node q = none := by
  unfold osRemove
  split
  · exact Or.inl rfl
  · rw [node_erasePath]
    by_cases hq : q = p <;> simp [hq]
  · split
    · exact Or.inl rfl
    · rw [node_erasePath]
      by_cases hq : q = p <;> simp [hq]

/-- Other paths are untouched by `os.Remove`. -/
theorem node_osRemove_of_ne (fs : FileSystem) (p q : String) (h : q ≠ p) :
    (osRemove fs p).node q = fs.node q := by
  unfold osRemove
  split
  · rfl
  · rw [node_erasePath, if_neg h]
  · split
    · rfl
    · rw [node_erasePath, if_neg h]

/-- On a deletable path `os.Remove` leaves nothing. -/
theorem node_osRemove_self (fs : FileSystem) (p : String) (h : deletable fs p = true) :
    (osRemove fs p).node p = none := by
  unfold deletable at h
  unfold osRemove
  split
  · assumption
  · rw [node_erasePath, if_pos rfl]
  · rename_i sz hn
    simp only [hn, Bool.not_eq_true'] at h
    rw [h]
    simp only [Bool.false_eq_true, if_false]
    rw [node_erasePath, if_pos rfl]

/-- What names nothing still names nothing after an `os.Remove`. -/
theorem node_osRemove_none (fs : FileSystem) (p q : String) (h : fs.node q = none) :
    (osRemove fs p).node q = none := by
  rcases node_osRemove fs p q with h1 | h1
  · rw [h1, h]
  · exact h1

theorem hasEntries_osRemove (fs : FileSystem) (p q : String)
    (h : hasEntries (osRemove fs p) q = true) : hasEntries fs q = true := by
  unfold osRemove at h
  split at h
  · exact h
  · simp only [hasEntries, List.any_eq_true] at h ⊢
    obtain ⟨kv, hm, hu⟩ := h
    exact ⟨kv, mem_erasePath fs p kv hm, hu⟩
  · split at h
    · exact h
    · simp only [hasEntries, List.any_eq_true] at h ⊢
      obtain ⟨kv, hm, hu⟩ := h
      exact ⟨kv, mem_erasePath fs p kv hm, hu⟩

/-- A deletable path stays deletable when something is removed. -/
theorem deletable_osRemove (fs : FileSystem) (p q : String) (h : deletable fs q = true) :
    deletable (osRemove fs p) q = true := by
  unfold deletable at h ⊢
  rcases node_osRemove fs p q with h1 | h1
  · rw [h1]
    split
    · rename_i sz hn
      simp only [hn, Bool.not_eq_true'] at h
      simp only [Bool.not_eq_true']
      cases he : hasEntries (osRemove fs p) q with
      | false => rfl
      | true =>
        rw [hasEntries_osRemove fs p q he] at h
        cases h
    · rfl
  · rw [h1]

/-! ## Facts about the decimal digits -/

theorem fmtDigits_eq (fuel u : Nat) (acc : List Char) (hu : 0 < u) (hf : u ≤ fuel) :
    fmtDigits fuel u acc = (Nat.digits 10 u).reverse.map digitChar ++ acc := by
  induction fuel generalizing u acc with
  | zero => omega
  | succ fuel ih =>
    unfold fmtDigits
    split
    · rename_i h10
      have hq : 0 < u / 10 := Nat.div_pos h10 (by norm_num)
      have hlt : u / 10 ≤ fuel := by
        have : u / 10 < u := Nat.div_lt_self hu (by norm_num)
        omega
      have hmod : u - u / 10 * 10 = u % 10 := by omega
      rw [ih (u / 10) _ hq hlt, hmod, Nat.digits_def' (by norm_num) hu]
      simp
    · rename_i h10
      have hlt : u < 10 := by omega
      rw [Nat.digits_of_lt 10 u (by omega) hlt]
      rfl

/-- The digit loop of `fmt` yields the decimal rendering. -/
theorem fmtD_eq_decimalRendering (n : Int) : fmtD n = decimalRendering n := by
  have hd : ∀ u : Nat, 0 < u →
      fmtDigits u u [] = (Nat.digits 10 u).reverse.map digitChar := by
    intro u hu
    rw [fmtDigits_eq u u [] hu (le_refl _), List.append_nil]
  cases n with
  | ofNat u =>
    have hnn : ¬ ((Int.ofNat u) < 0) := by simp
    cases u with
    | zero => rfl
    | succ v =>
      have habs : (Int.ofNat (v + 1)).natAbs = v + 1 := rfl
      unfold fmtD decimalRendering
      simp only [habs, hnn, if_false]
      rw [if_neg (Nat.succ_ne_zero v), hd (v + 1) (Nat.succ_pos v)]
  | negSucc u =>
    have hneg : Int.negSucc u < 0 := Int.negSucc_lt_zero u
    have habs : (Int.negSucc u).natAbs = u + 1 := rfl
    unfold fmtD decimalRendering
    simp only [habs, hneg, if_true]
    rw [if_neg (Nat.succ_ne_zero u), hd (u + 1) (Nat.succ_pos u)]

/-! ## Finish -/

/-- Claim C5. `Finish` on an object id without a registry entry (a nil
registry included) returns the error "Unable to find upload for oid", makes no
call at all to the file system or to the store, and leaves the receiver and the
file system as they were. -/
theorem finish_unknown_id (t : TusServer) (oid : String) (store : ContentStore)
    (fs : FileSystem) (hreg : mapGet t.oidToTusUrl oid = none) :
    t.Finish oid store fs
        = .returned (some (.errorf ("Unable to find upload for " ++ oid)), fs) t []
      ∧ fsCalls (t.Finish oid store fs).events = []
      ∧ putCalls (t.Finish oid store fs).events = [] := by
  have h : t.Finish oid store fs
      = .returned (some (.errorf ("Unable to find upload for " ++ oid)), fs) t [] := by
    simp [TusServer.Finish, hreg]
  rw [h]
  exact ⟨rfl, rfl, rfl⟩

/-- Claim C1. When the registry maps `oid` to `loc`, `name` is the last
`/`-separated piece of `loc`, the data directory holds a regular file `name`
with contents `content` of `n` bytes, and the store's `Put` accepts that write,
then `Finish` returns a nil error, `Put` is called exactly once, with
`(Oid: oid, Size: n, Existing: false)` and that file, and afterwards neither
`name` nor `name.info` exists in the data directory; every other path and the
receiver are untouched. The disk is one on which the sidecar path can be
deleted: it names nothing, a regular file, or a directory without entries, as
in the layout of the data directory (one data file and one sidecar file per
session). -/
theorem finish_success (t : TusServer) (oid loc name : String) (store : ContentStore)
    (fs : FileSystem) (content : List UInt8) (n : Int)
    (hreg : mapGet t.oidToTusUrl oid = some loc)
    (hname : (stringsSplit loc '/').getLast? = some name)
    (hfile : fs.node (filepathJoin t.dataPath name) = some (.file content))
    (hsize : (content.length : Int) = n)
    (hput : store.Put ⟨oid, n, false⟩ (.file content) = none)
    (hside : deletable fs (filepathJoin t.dataPath (name ++ ".info")) = true) :
    ∃ fs' ev, t.Finish oid store fs = .returned (none, fs') t ev
      ∧ putCalls ev = [(⟨oid, n, false⟩, .file content)]
      ∧ fs'.node (filepathJoin t.dataPath name) = none
      ∧ fs'.node (filepathJoin t.dataPath (name ++ ".info")) = none
      ∧ ∀ p, p ≠ filepathJoin t.dataPath name →
          p ≠ filepathJoin t.dataPath (name ++ ".info") → fs'.node p = fs.node p := by
  subst hsize
  have hdel : deletable fs (filepathJoin t.dataPath name) = true := by
    simp [deletable, hfile]
  refine ⟨osRemove (osRemove fs (filepathJoin t.dataPath name))
      (filepathJoin t.dataPath (name ++ ".info")),
    [.stat (filepathJoin t.dataPath name), .fileOpen (filepathJoin t.dataPath name),
      .put ⟨oid, content.length, false⟩ (.file content),
      .remove (filepathJoin t.dataPath name),
      .remove (filepathJoin t.dataPath (name ++ ".info")),
      .fileClose (filepathJoin t.dataPath name)], ?_, ?_, ?_, ?_, ?_⟩
  · simp only [TusServer.Finish, hreg, stringsSplit_last_index, hname, osStat, osOpen, hfile,
      hput]
  · rfl
  · exact node_osRemove_none _ _ _ (node_osRemove_self fs _ hdel)
  · exact node_osRemove_self _ _ (deletable_osRemove fs _ _ hside)
  · intro p h1 h2
    rw [node_osRemove_of_ne _ _ _ h2, node_osRemove_of_ne _ _ _ h1]

/-- Claim C4. When the registry maps `oid` to `loc`, the file named by the
last piece of `loc` exists, and the store's `Put` returns the error `e`, then
`Finish` returns exactly `e`, removes nothing, and leaves the file system (so
the source file and its `.info` sidecar) and the receiver (so the registry
entry) exactly as they were. -/
theorem finish_store_failure (t : TusServer) (oid loc name : String) (store : ContentStore)
    (fs : FileSystem) (content : List UInt8) (e : GoError)
    (hreg : mapGet t.oidToTusUrl oid = some loc)
    (hname : (stringsSplit loc '/').getLast? = some name)
    (hfile : fs.node (filepathJoin t.dataPath name) = some (.file content))
    (hput : store.Put ⟨oid, content.length, false⟩ (.file content) = some e) :
    ∃ ev, t.Finish oid store fs = .returned (some e, fs) t ev
      ∧ (∀ p, Event.remove p ∉ ev)
      ∧ mapGet t.oidToTusUrl oid = some loc
      ∧ fs.node (filepathJoin t.dataPath name) = some (.file content) := by
  refine ⟨[.stat (filepathJoin t.dataPath name), .fileOpen (filepathJoin t.dataPath name),
      .put ⟨oid, content.length, false⟩ (.file content),
      .fileClose (filepathJoin t.dataPath name)],
    ?_, ?_, hreg, hfile⟩
  · simp only [TusServer.Finish, hreg, stringsSplit_last_index, hname, osStat, osOpen, hfile,
      hput]
  · intro p
    simp

/-- What `os.Stat` answers: the size of what is there, or the path error. -/
theorem osStat_eq (fs : FileSystem) (path : String) :
    (∃ n size, fs.node path = some n ∧ osStat fs path = .ok size ∧ osOpen fs path = .ok n)
      ∨ (fs.node path = none ∧
          osStat fs path = .error (.pathError "stat" path "no such file or directory")) := by
  unfold osStat osOpen
  cases h : fs.node path with
  | none => exact Or.inr ⟨rfl, rfl⟩
  | some n =>
    cases n with
    | file c => exact Or.inl ⟨_, _, rfl, rfl, rfl⟩
    | dir sz => exact Or.inl ⟨_, _, rfl, rfl, rfl⟩

/-- Claim C9, as amended. After a `Finish` that returned a nil error the
receiver is unchanged, so the registry still maps `oid` to its location. If
the path that `Finish` read, the last piece of the location under the data
directory, was one `os.Remove` deletes (a regular file or a directory without
entries), a second `Finish` for the same id, against any store, returns the
path error of `os.Stat` on that path and makes no other call: no open, no
`Put`. -/
theorem finish_terminal (t t' : TusServer) (oid : String) (store store2 : ContentStore)
    (fs fs' : FileSystem) (ev : List Event)
    (h : t.Finish oid store fs = .returned (none, fs') t' ev) :
    t' = t
      ∧ (∃ loc, mapGet t.oidToTusUrl oid = some loc ∧ mapGet t'.oidToTusUrl oid = some loc)
      ∧ ∀ loc name, mapGet t.oidToTusUrl oid = some loc →
          (stringsSplit loc '/').getLast? = some name →
          deletable fs (filepathJoin t.dataPath name) = true →
          t'.Finish oid store2 fs'
            = .returned (some (.pathError "stat" (filepathJoin t.dataPath name)
                  "no such file or directory"), fs') t'
                [.stat (filepathJoin t.dataPath name)] := by
  unfold TusServer.Finish at h
  rcases Option.eq_none_or_eq_some (mapGet t.oidToTusUrl oid) with hreg | ⟨loc, hreg⟩
  · simp [hreg] at h
  · obtain ⟨name, hname⟩ := stringsSplit_getLast_isSome loc '/'
    simp only [hreg, stringsSplit_last_index, hname] at h
    rcases osStat_eq fs (filepathJoin t.dataPath name) with ⟨n, size, hn, hst, hop⟩ | ⟨_, hst⟩
    · simp only [hst, hop] at h
      cases hput : store.Put ⟨oid, size, false⟩ n with
      | some e => simp [hput] at h
      | none =>
        simp only [hput] at h
        injection h with h1 h2 h3
        injection h1 with _ hfs
        subst h2
        subst hfs
        refine ⟨rfl, ⟨loc, hreg, hreg⟩, ?_⟩
        intro loc2 name2 hreg2 hname2 hdel
        have hl : loc2 = loc := Option.some.inj (hreg2.symm.trans hreg)
        subst hl
        have hn2 : name2 = name := Option.some.inj (hname2.symm.trans hname)
        subst hn2
        have hgone : (osRemove (osRemove fs (filepathJoin t.dataPath name2))
            (filepathJoin t.dataPath (name2 ++ ".info"))).node (filepathJoin t.dataPath name2)
            = none :=
          node_osRemove_none _ _ _ (node_osRemove_self fs _ hdel)
        simp only [TusServer.Finish, hreg, stringsSplit_last_index, hname, osStat, hgone]
    · simp [hst] at h

/-- Claim C9 as stated fails when the registered location ends in a slash.
Its last piece is empty, so the path `Finish` reads is the data directory
itself. `os.Stat` and `os.Open` succeed on it, the store accepts, `os.Remove`
fails on the directory because it has entries, and the error is dropped: the
first `Finish` returns nil and leaves the disk as it was. The second `Finish`
then passes the stat step, calls `Put` again and returns nil again. -/
theorem finish_twice_on_directory :
    slashServer.Finish "oid1" acceptingStore demoFiles
        = .returned (none, demoFiles) slashServer
            [.stat "/tmp/lfs_tusserver", .fileOpen "/tmp/lfs_tusserver",
              .put ⟨"oid1", 4096, false⟩ (.dir 4096), .remove "/tmp/lfs_tusserver",
              .remove "/tmp/lfs_tusserver/.info", .fileClose "/tmp/lfs_tusserver"]
      ∧ putCalls (slashServer.Finish "oid1" acceptingStore demoFiles).events
          = [(⟨"oid1", 4096, false⟩, .dir 4096)]
      ∧ ∀ path msg, slashServer.Finish "oid1" acceptingStore demoFiles
          ≠ .returned (some (.pathError "stat" path msg), demoFiles) slashServer
              [.stat path] := by
  have h : slashServer.Finish "oid1" acceptingStore demoFiles
      = .returned (none, demoFiles) slashServer
          [.stat "/tmp/lfs_tusserver", .fileOpen "/tmp/lfs_tusserver",
            .put ⟨"oid1", 4096, false⟩ (.dir 4096), .remove "/tmp/lfs_tusserver",
            .remove "/tmp/lfs_tusserver/.info", .fileClose "/tmp/lfs_tusserver"] := by
    rfl
  refine ⟨h, ?_, ?_⟩
  · rw [h]
    rfl
  · intro path msg hc
    rw [h] at hc
    injection hc with h1 _ _
    injection h1 with h2 _
    cases h2

/-! ## The invariant of reachable receivers -/

theorem inv_zero (Config : Configuration) : Inv Config TusServer.zero := by
  intro h
  simp [TusServer.zero] at h

theorem inv_start (Config : Configuration) (env : Env) (t t' : TusServer) (ev : List Event)
    (hinv : Inv Config t) (h : t.Start Config env = .returned () t' ev) : Inv Config t' := by
  unfold TusServer.Start at h
  split at h
  · injection h with _ ht _
    subst ht
    exact hinv
  · simp only at h
    split at h
    · cases h
    · cases h
    · cases h
    · injection h with _ ht _
      subst ht
      intro _
      exact ⟨rfl, rfl⟩

theorem inv_stop (Config : Configuration) (t t' : TusServer) (ev : List Event)
    (hinv : Inv Config t) (h : t.Stop = .returned () t' ev) : Inv Config t' := by
  unfold TusServer.Stop at h
  split at h
  · injection h with _ ht _
    subst ht
    exact hinv
  · injection h with _ ht _
    subst ht
    exact hinv

theorem inv_create (Config : Configuration) (env : Env) (t t' : TusServer) (oid : String)
    (size : Int) (r : Request) (val : String × Option GoError) (ev : List Event)
    (hinv : Inv Config t) (h : t.Create Config env oid size r = .returned val t' ev) :
    Inv Config t' := by
  unfold TusServer.Create at h
  simp only at h
  split at h
  · injection h with _ ht _
    subst ht
    exact hinv
  · split at h
    · cases h
    · split at h
      · injection h with _ ht _
        subst ht
        exact hinv
      · split at h
        · injection h with _ ht _
          subst ht
          exact hinv
        · split at h
          · injection h with _ ht _
            subst ht
            exact hinv
          · split at h
            · cases h
            · injection h with _ ht _
              subst ht
              intro hc
              exact ⟨rfl, (hinv hc).2⟩

/-- The receiver `Finish` leaves behind is the one it was called on. -/
theorem finish_receiver (t t' : TusServer) (oid : String) (store : ContentStore)
    (fs : FileSystem) (val : Option GoError × FileSystem) (ev : List Event)
    (h : t.Finish oid store fs = .returned val t' ev) : t' = t := by
  unfold TusServer.Finish at h
  simp only at h
  split at h
  · injection h with _ ht _
    exact ht.symm
  · split at h
    · cases h
    · split at h
      · injection h with _ ht _
        exact ht.symm
      · split at h
        · injection h with _ ht _
          exact ht.symm
        · split at h
          · injection h with _ ht _
            exact ht.symm
          · injection h with _ ht _
            exact ht.symm

/-- Every reachable receiver satisfies `Inv`. -/
theorem reachable_inv (Config : Configuration) (t : TusServer) (h : Reachable Config t) :
    Inv Config t := by
  induction h with
  | zero => exact inv_zero Config
  | start t t' env ev _ hs ih => exact inv_start Config env t t' ev ih hs
  | stop t t' ev _ hs ih => exact inv_stop Config t t' ev ih hs
  | create t t' env oid size r val ev _ hs ih =>
    exact inv_create Config env t t' oid size r val ev ih hs
  | finish t t' oid store fs val ev _ hs ih =>
    rw [finish_receiver t t' oid store fs val ev hs]
    exact ih

/-! ## Create -/

/-- Claim C2. On a receiver that `Start` has set up (client present, hence a
registry), when `http.NewRequest` accepts the URL and the client answers the
request with status 201 and a `Location` value `loc` that is not empty,
`Create` returns `(loc, nil)`; afterwards the registry maps `oid` to `loc`,
whatever it held for `oid` before, every other id maps to what it did, and no
other field has changed. -/
theorem create_success (t : TusServer) (Config : Configuration) (env : Env) (oid : String)
    (size : Int) (r : Request) (res : Response) (loc : String)
    (hinv : Inv Config t) (hclient : t.httpClient.isSome = true)
    (hurl : env.urlParse t.tusBaseUrl = none)
    (hdo : env.Do (createRequest t Config oid size r) = .ok res)
    (hstatus : res.StatusCode = 201)
    (hloc : res.Header.Get "Location" = loc) (hne : loc ≠ "") :
    ∃ t' ev, t.Create Config env oid size r = .returned (loc, none) t' ev
      ∧ mapGet t'.oidToTusUrl oid = some loc
      ∧ (∀ k, k ≠ oid → mapGet t'.oidToTusUrl k = mapGet t.oidToTusUrl k)
      ∧ t'.tusProcess = t.tusProcess ∧ t'.dataPath = t.dataPath
      ∧ t'.tusBaseUrl = t.tusBaseUrl ∧ t'.httpClient = t.httpClient := by
  obtain ⟨hmap, _⟩ := hinv hclient
  obtain ⟨m, hm⟩ := Option.isSome_iff_exists.mp hmap
  obtain ⟨c, hc⟩ := Option.isSome_iff_exists.mp hclient
  have hlen : ¬ loc.length = 0 := fun h => hne ((string_length_eq_zero loc).mp h)
  subst hloc
  refine ⟨{ t with oidToTusUrl := some (mapSet m oid (res.Header.Get "Location")) },
    (t.Create Config env oid size r).events, ?_, ?_, ?_, rfl, rfl, rfl, rfl⟩
  · simp only [TusServer.Create, hurl, hc, hdo, hstatus, hm]
    simp [hlen, Outcome.events]
  · simp [mapGet, mapSet]
  · intro k hk
    simp [mapGet, mapSet, hk, hm]

/-- A header without an entry for a key reads as the empty string. -/
theorem header_get_of_not_has (h : Header) (key : String) (hno : h.Has key = false) :
    h.Get key = "" := by
  unfold Header.Has at hno
  unfold Header.Get
  cases hl : List.lookup key h with
  | none => rfl
  | some v => simp [hl] at hno

/-- Claim C3. First part: on a receiver with a client, if the client reports a
transport error, or answers with a status other than 201, or answers 201 with a
`Location` header that is missing or empty, `Create` returns the empty string
and an error and leaves the receiver, registry included, exactly as it was.
Second part: whenever `Create` returns a nil error, the client answered the
request with status 201 and a `Location` value that is not empty, and that
value is the string returned. -/
theorem create_failure (t : TusServer) (Config : Configuration) (env : Env) (oid : String)
    (size : Int) (r : Request) :
    (t.httpClient.isSome = true →
      ((∃ e, env.Do (createRequest t Config oid size r) = .error e) ∨
        (∃ res, env.Do (createRequest t Config oid size r) = .ok res ∧
          (res.StatusCode ≠ 201 ∨ res.Header.Has "Location" = false ∨
            res.Header.Get "Location" = ""))) →
      ∃ e ev, t.Create Config env oid size r = .returned ("", some e) t ev)
    ∧ (∀ l t' ev, t.Create Config env oid size r = .returned (l, none) t' ev →
        ∃ res, env.Do (createRequest t Config oid size r) = .ok res ∧ res.StatusCode = 201 ∧
          res.Header.Get "Location" = l ∧ l ≠ "") := by
  constructor
  · intro hclient hfail
    obtain ⟨c, hc⟩ := Option.isSome_iff_exists.mp hclient
    cases hurl : env.urlParse t.tusBaseUrl with
    | some err =>
      refine ⟨err, (t.Create Config env oid size r).events, ?_⟩
      simp [TusServer.Create, hurl, Outcome.events]
    | none =>
      rcases hfail with ⟨e, he⟩ | ⟨res, hres, hbad⟩
      · refine ⟨e, (t.Create Config env oid size r).events, ?_⟩
        simp [TusServer.Create, hurl, hc, he, Outcome.events]
      · by_cases hst : res.StatusCode = 201
        · have hempty : res.Header.Get "Location" = "" := by
            rcases hbad with h1 | h2 | h3
            · exact absurd hst h1
            · exact header_get_of_not_has _ _ h2
            · exact h3
          refine ⟨.errorf "Missing Location header in tus response",
            (t.Create Config env oid size r).events, ?_⟩
          simp [TusServer.Create, hurl, hc, hres, hst, hempty, Outcome.events]
        · refine ⟨.errorf ("Expected tus status code 201, got " ++ fmtD res.StatusCode),
            (t.Create Config env oid size r).events, ?_⟩
          simp [TusServer.Create, hurl, hc, hres, hst, Outcome.events]
  · intro l t' ev h
    unfold TusServer.Create at h
    simp only at h
    split at h
    · simp at h
    · split at h
      · cases h
      · split at h
        · simp at h
        · rename_i res hres
          split at h
          · simp at h
          · rename_i hst
            split at h
            · simp at h
            · rename_i hlen
              split at h
              · cases h
              · injection h with h1 _ _
                injection h1 with hl _
                refine ⟨res, hres, not_not.mp hst, hl, ?_⟩
                intro hl0
                apply hlen
                rw [hl, hl0]
                rfl

/-- Claim C8, as amended. The only request `Create` ever hands to the client
is `createRequest`, and it hands it over exactly once whenever the client
exists and `http.NewRequest` accepts the URL. That request is a `POST` to the
receiver's base URL, which on every receiver `Start` has set up is the
configured external origin followed by `/files/`; it carries `Tus-Resumable`
`1.0.0`, `Upload-Length` the decimal rendering of `size`, and `Upload-Metadata`
`oid ` followed by the object id. When `TusBehindProxy` is `"true"`, each of
`X-Forwarded-Host`, `X-Forwarded-Proto` and `X-Forwarded-Port` is set to
exactly one value, the one `Header.Get` reads for that name on the inbound
request: its first value there, or the empty string when the inbound request
has no such header. Otherwise none of the three is set. -/
theorem create_request (t : TusServer) (Config : Configuration) (env : Env) (oid : String)
    (size : Int) (r : Request) :
    (httpCalls (t.Create Config env oid size r).events = [] ∨
      httpCalls (t.Create Config env oid size r).events = [createRequest t Config oid size r])
    ∧ (t.httpClient.isSome = true → env.urlParse t.tusBaseUrl = none →
        httpCalls (t.Create Config env oid size r).events = [createRequest t Config oid size r])
    ∧ (createRequest t Config oid size r).Method = "POST"
    ∧ (createRequest t Config oid size r).URL = t.tusBaseUrl
    ∧ (Inv Config t → t.httpClient.isSome = true →
        (createRequest t Config oid size r).URL = Config.TusExtOrigin ++ "/files/")
    ∧ (createRequest t Config oid size r).Header.Get "Tus-Resumable" = "1.0.0"
    ∧ (createRequest t Config oid size r).Header.Get "Upload-Length" = decimalRendering size
    ∧ (createRequest t Config oid size r).Header.Get "Upload-Metadata" = "oid " ++ oid
    ∧ (Config.TusBehindProxy = "true" →
        ∀ k ∈ ["X-Forwarded-Host", "X-Forwarded-Proto", "X-Forwarded-Port"],
          List.lookup k (createRequest t Config oid size r).Header = some [r.Header.Get k] ∧
          (createRequest t Config oid size r).Header.Get k = r.Header.Get k)
    ∧ (Config.TusBehindProxy ≠ "true" →
        ∀ k ∈ ["X-Forwarded-Host", "X-Forwarded-Proto", "X-Forwarded-Port"],
          (createRequest t Config oid size r).Header.Has k = false) := by
  have hsent : t.httpClient.isSome = true → env.urlParse t.tusBaseUrl = none →
      httpCalls (t.Create Config env oid size r).events
        = [createRequest t Config oid size r] := by
    intro hclient hurl
    obtain ⟨c, hc⟩ := Option.isSome_iff_exists.mp hclient
    cases hdo : env.Do (createRequest t Config oid size r) with
    | error e => simp [TusServer.Create, hurl, hc, hdo, Outcome.events, httpCalls]
    | ok res =>
      by_cases hst : res.StatusCode = 201
      · by_cases hlen : (res.Header.Get "Location").length = 0
        · simp [TusServer.Create, hurl, hc, hdo, hst, hlen, Outcome.events, httpCalls]
        · cases hm : t.oidToTusUrl <;>
            simp [TusServer.Create, hurl, hc, hdo, hst, hlen, hm, Outcome.events, httpCalls]
      · simp [TusServer.Create, hurl, hc, hdo, hst, Outcome.events, httpCalls]
  refine ⟨?_, hsent, rfl, rfl, ?_, ?_, ?_, ?_, ?_, ?_⟩
  · cases hurl : env.urlParse t.tusBaseUrl with
    | some err =>
      left
      simp [TusServer.Create, hurl, Outcome.events, httpCalls]
    | none =>
      cases hc : t.httpClient with
      | none =>
        left
        simp [TusServer.Create, hurl, hc, Outcome.events, httpCalls]
      | some c =>
        right
        exact hsent (by simp [hc]) hurl
  · intro hinv hclient
    exact (hinv hclient).2
  · by_cases hb : Config.TusBehindProxy = "true" <;>
      simp [createRequest, createHeader, hb, Header.Set, Header.Get, List.lookup]
  · rw [← fmtD_eq_decimalRendering]
    by_cases hb : Config.TusBehindProxy = "true" <;>
      simp [createRequest, createHeader, hb, Header.Set, Header.Get, List.lookup]
  · by_cases hb : Config.TusBehindProxy = "true" <;>
      simp [createRequest, createHeader, hb, Header.Set, Header.Get, List.lookup]
  · intro hb k hk
    simp only [List.mem_cons, List.mem_singleton, List.not_mem_nil, or_false] at hk
    rcases hk with rfl | rfl | rfl <;>
      simp [createRequest, createHeader, hb, Header.Set, Header.Get, List.lookup]
  · intro hb k hk
    simp only [List.mem_cons, List.mem_singleton, List.not_mem_nil, or_false] at hk
    rcases hk with rfl | rfl | rfl <;>
      simp [createRequest, createHeader, hb, Header.Set, Header.Has, List.lookup]

/-- Claim C8 as stated fails: the forwarding headers are not copied as they
stand. With `TusBehindProxy` `"true"` and an inbound request that carries two
values of `X-Forwarded-Host` and no `X-Forwarded-Port`, the outbound request
carries one value of `X-Forwarded-Host` and an `X-Forwarded-Port` whose value
is the empty string. -/
theorem create_request_not_verbatim :
    demoConfig.TusBehindProxy = "true"
      ∧ List.lookup "X-Forwarded-Host" multiRequest.Header
          = some ["a.example.org", "b.example.org"]
      ∧ List.lookup "X-Forwarded-Host"
            (createRequest demoServer demoConfig "oid2" 42 multiRequest).Header
          = some ["a.example.org"]
      ∧ List.lookup "X-Forwarded-Port" multiRequest.Header = none
      ∧ List.lookup "X-Forwarded-Port"
            (createRequest demoServer demoConfig "oid2" 42 multiRequest).Header
          = some [""]
      ∧ ¬ (∀ k ∈ ["X-Forwarded-Host", "X-Forwarded-Proto", "X-Forwarded-Port"],
            List.lookup k (createRequest demoServer demoConfig "oid2" 42 multiRequest).Header
              = List.lookup k multiRequest.Header) := by
  refine ⟨by decide, by decide, by decide, by decide, by decide, ?_⟩
  intro h
  exact absurd (h "X-Forwarded-Port" (by decide)) (by decide)

/-! ## Start -/

/-- Claim C7. On a receiver that already has a process handle `Start` returns
the receiver unchanged in every field and makes no call at all, so launches
nothing and logs nothing. Hence from a receiver without a handle (the zero
value among them), when the helper can be launched, the first `Start` returns,
the second `Start` returns the state the first one left, and the two calls
together launch exactly one helper and log `Tus server started` exactly once. -/
theorem start_idempotent (Config : Configuration) (env : Env) :
    (∀ t : TusServer, t.tusProcess.isSome = true → t.Start Config env = .returned () t [])
    ∧ (∀ t : TusServer, t.tusProcess = none →
        env.launch (tusCommand Config (filepathJoin env.TempDir "lfs_tusserver")) = .ok →
        ∃ t1 ev1, t.Start Config env = .returned () t1 ev1
          ∧ t1.Start Config env = .returned () t1 []
          ∧ execCalls (ev1 ++ (t1.Start Config env).events)
              = [tusCommand Config (filepathJoin env.TempDir "lfs_tusserver")]
          ∧ logLines (ev1 ++ (t1.Start Config env).events)
              = [("Start", "Tus server started")]) := by
  have h1 : ∀ t : TusServer, t.tusProcess.isSome = true →
      t.Start Config env = .returned () t [] := by
    intro t ht
    simp [TusServer.Start, ht]
  refine ⟨h1, ?_⟩
  intro t ht hl
  refine ⟨⟨some (tusCommand Config (filepathJoin env.TempDir "lfs_tusserver")),
      filepathJoin env.TempDir "lfs_tusserver", Config.TusExtOrigin ++ "/files/", some {},
      some (fun _ => none)⟩,
    [.exec (tusCommand Config (filepathJoin env.TempDir "lfs_tusserver")),
      .log "Start" "Tus server started"], ?_, ?_, ?_, ?_⟩
  · simp only [TusServer.Start, ht, hl]
    rfl
  · exact h1 _ rfl
  · rw [h1 ⟨some _, _, _, _, _⟩ rfl]
    rfl
  · rw [h1 ⟨some _, _, _, _, _⟩ rfl]
    rfl

/-- Claim C6, the defect. With an empty `TusHost` the split yields the one
piece `""`, the guard `len(hostparts) > 0` holds, and the helper is launched
with `-host ""` and `-port 1080`: the default `localhost` is never used. -/
theorem start_empty_host :
    hostPort "" = ("", "1080")
      ∧ (TusServer.zero.Start ⟨"", "false", "http://localhost:8080"⟩
            ⟨"/tmp", fun _ => none, fun _ => .ok, fun _ => .error (.other "unreachable")⟩).events
          = [.exec ⟨"tusd", ["-upload-dir", "/tmp/lfs_tusserver", "-host", "", "-port", "1080"]⟩,
             .log "Start" "Tus server started"] := by
  constructor
  · decide
  · rfl

theorem splitChars_of_not_mem (sep : Char) (l : List Char) (h : sep ∉ l) :
    splitChars sep l = [l] := by
  induction l with
  | nil => rfl
  | cons c cs ih =>
    have hc : ¬ c = sep := fun hc => h (by simp [hc])
    have hcs : sep ∉ cs := fun hm => h (by simp [hm])
    simp [splitChars, hc, ih hcs]

theorem splitChars_append_sep (sep : Char) (a b : List Char) (h : sep ∉ a) :
    splitChars sep (a ++ sep :: b) = a :: splitChars sep b := by
  induction a with
  | nil => simp [splitChars]
  | cons c cs ih =>
    have hc : ¬ c = sep := fun hc => h (by simp [hc])
    have hcs : sep ∉ cs := fun hm => h (by simp [hm])
    simp [splitChars, hc, ih hcs]

/-- A configured host without a colon is used as it is, with port 1080. This
covers the empty host too. -/
theorem hostPort_host_only (host : String) (h : ':' ∉ host.data) :
    hostPort host = (host, "1080") := by
  simp [hostPort, stringsSplit, splitChars_of_not_mem _ _ h]

/-- A configured `host:port` is used as host and port. -/
theorem hostPort_host_port (host port : String) (h : ':' ∉ host.data) (hp : ':' ∉ port.data) :
    hostPort (host ++ ":" ++ port) = (host, port) := by
  have hd : (host ++ ":" ++ port).data = host.data ++ ':' :: port.data := by
    simp [String.data_append]
  simp [hostPort, stringsSplit, hd, splitChars_append_sep _ _ _ h, splitChars_of_not_mem _ _ hp]

theorem splitChars_append (sep : Char) (a b : List Char) :
    splitChars sep (a ++ sep :: b) = splitChars sep a ++ splitChars sep b := by
  induction a with
  | nil => simp [splitChars]
  | cons c cs ih =>
    by_cases hc : c = sep
    · simp [splitChars, hc, ih]
    · rcases List.exists_cons_of_ne_nil (splitChars_ne_nil sep cs) with ⟨p, ps, hp⟩
      simp [splitChars, hc, ih, hp]

theorem intercalate_snoc (sep : List Char) (ks : List (List Char)) (n : List Char)
    (h : ks ≠ []) : sep.intercalate (ks ++ [n]) = sep.intercalate ks ++ sep ++ n := by
  induction ks with
  | nil => exact absurd rfl h
  | cons k rest ih =>
    cases rest with
    | nil => simp [List.intercalate, List.intersperse]
    | cons k2 rest2 =>
      have := ih (by simp)
      simp only [List.intercalate, List.cons_append, List.intersperse, List.flatten_cons,
        List.append_assoc] at this ⊢
      have happ : rest2.append [n] = rest2 ++ [n] := rfl
      rw [happ, this]

/-- Under a cleaned directory other than `/` and `.`, `filepath.Join` with a
proper file name is the directory, a slash and the name: the path `Finish`
stats, opens and removes is the entry `name` of the data directory. -/
theorem filepathJoin_plain (dir name : String) (hclean : filepathClean dir = dir)
    (hroot : dir ≠ "/") (hdot : dir ≠ ".") (hname : plainName name) :
    filepathJoin dir name = dir ++ "/" ++ name := by
  obtain ⟨hn1, hn2, hn3, hn4⟩ := hname
  have hne : dir ≠ "" := by
    intro h
    rw [h] at hclean
    exact absurd hclean (by decide)
  have hd : dir.data ≠ [] := fun h => hne (String.ext h)
  have hdata : (dir ++ "/" ++ name).data = dir.data ++ '/' :: name.data := by
    simp [String.data_append]
  have hhead : (dir.data ++ '/' :: name.data).head? = dir.data.head? := by
    cases hdd : dir.data with
    | nil => exact absurd hdd hd
    | cons c cs => rfl
  unfold filepathJoin
  rw [if_pos hne]
  unfold filepathClean at hclean ⊢
  rw [if_neg hd] at hclean
  rw [hdata, if_neg (by simp)]
  simp only [hhead, splitChars_append, splitChars_of_not_mem _ _ hn2, List.foldl_append,
    List.foldl_cons, List.foldl_nil] at hclean ⊢
  have hstep : ∀ st, cleanStep (decide (dir.data.head? = some '/')) st name.data
      = name.data :: st := by
    intro st
    simp [cleanStep, hn1, hn3, hn4]
  rw [hstep]
  simp only [List.reverse_cons]
  generalize (List.foldl (cleanStep (decide (dir.data.head? = some '/'))) []
    (splitChars '/' dir.data)).reverse = kept at hclean ⊢
  generalize decide (dir.data.head? = some '/') = rooted at hclean ⊢
  have hs : dir ++ "/" ++ name = ⟨dir.data ++ '/' :: name.data⟩ := String.ext hdata
  by_cases hk : kept = []
  · subst hk
    cases rooted with
    | true =>
      exfalso
      apply hroot
      rw [← hclean]
      rfl
    | false =>
      exfalso
      apply hdot
      rw [← hclean]
      rfl
  · have hi := intercalate_snoc ['/'] kept name.data hk
    cases rooted with
    | true =>
      simp only [if_true] at hclean ⊢
      rw [hs, hi]
      apply String.ext
      rw [← hclean]
      simp [String.data_append]
    | false =>
      simp only [Bool.false_eq_true, if_false, hk] at hclean ⊢
      rw [hs, hi]
      apply String.ext
      rw [← hclean]
      simp

/-! ## The theorems at a concrete scenario -/

theorem finish_unknown_id_witness :
    demoServer.Finish "never-created" acceptingStore demoFiles
        = .returned (some (.errorf ("Unable to find upload for " ++ "never-created")), demoFiles)
            demoServer []
      ∧ fsCalls (demoServer.Finish "never-created" acceptingStore demoFiles).events = []
      ∧ putCalls (demoServer.Finish "never-created" acceptingStore demoFiles).events = [] :=
  finish_unknown_id demoServer "never-created" acceptingStore demoFiles (by decide)

theorem finish_success_witness :
    ∃ fs' ev, demoServer.Finish "oid1" acceptingStore demoFiles
        = .returned (none, fs') demoServer ev
      ∧ putCalls ev = [(⟨"oid1", 10, false⟩, .file [1, 2, 3, 4, 5, 6, 7, 8, 9, 10])]
      ∧ fs'.node (filepathJoin demoServer.dataPath "abc123") = none
      ∧ fs'.node (filepathJoin demoServer.dataPath ("abc123" ++ ".info")) = none
      ∧ ∀ p, p ≠ filepathJoin demoServer.dataPath "abc123" →
          p ≠ filepathJoin demoServer.dataPath ("abc123" ++ ".info") →
          fs'.node p = demoFiles.node p :=
  finish_success demoServer "oid1" "http://host/files/abc123" "abc123" acceptingStore demoFiles
    [1, 2, 3, 4, 5, 6, 7, 8, 9, 10] 10 (by decide) (by decide) (by decide) (by decide)
    (by decide) (by decide)

theorem finish_store_failure_witness :
    ∃ ev, demoServer.Finish "oid1" rejectingStore demoFiles
        = .returned (some (.other "disk full"), demoFiles) demoServer ev
      ∧ (∀ p, Event.remove p ∉ ev)
      ∧ mapGet demoServer.oidToTusUrl "oid1" = some "http://host/files/abc123"
      ∧ demoFiles.node (filepathJoin demoServer.dataPath "abc123")
          = some (.file [1, 2, 3, 4, 5, 6, 7, 8, 9, 10]) :=
  finish_store_failure demoServer "oid1" "http://host/files/abc123" "abc123" rejectingStore
    demoFiles [1, 2, 3, 4, 5, 6, 7, 8, 9, 10] (.other "disk full") (by decide) (by decide)
    (by decide) (by decide)

theorem finish_terminal_witness :
    demoServer = demoServer
      ∧ (∃ loc, mapGet demoServer.oidToTusUrl "oid1" = some loc
          ∧ mapGet demoServer.oidToTusUrl "oid1" = some loc)
      ∧ demoServer.Finish "oid1" rejectingStore demoFilesAfter
          = .returned (some (.pathError "stat" (filepathJoin demoServer.dataPath "abc123")
                "no such file or directory"), demoFilesAfter) demoServer
              [.stat (filepathJoin demoServer.dataPath "abc123")] :=
  have h := finish_terminal demoServer demoServer "oid1" acceptingStore rejectingStore demoFiles
    demoFilesAfter
    [.stat "/tmp/lfs_tusserver/abc123", .fileOpen "/tmp/lfs_tusserver/abc123",
      .put ⟨"oid1", 10, false⟩ (.file [1, 2, 3, 4, 5, 6, 7, 8, 9, 10]),
      .remove "/tmp/lfs_tusserver/abc123", .remove "/tmp/lfs_tusserver/abc123.info",
      .fileClose "/tmp/lfs_tusserver/abc123"]
    (by rfl)
  ⟨h.1, h.2.1, h.2.2 "http://host/files/abc123" "abc123" (by decide) (by decide) (by decide)⟩

theorem create_success_witness :
    ∃ t' ev, demoServer.Create demoConfig createdEnv "oid2" 42 demoRequest
        = .returned ("http://host/files/xyz789", none) t' ev
      ∧ mapGet t'.oidToTusUrl "oid2" = some "http://host/files/xyz789"
      ∧ (∀ k, k ≠ "oid2" → mapGet t'.oidToTusUrl k = mapGet demoServer.oidToTusUrl k)
      ∧ t'.tusProcess = demoServer.tusProcess ∧ t'.dataPath = demoServer.dataPath
      ∧ t'.tusBaseUrl = demoServer.tusBaseUrl ∧ t'.httpClient = demoServer.httpClient :=
  create_success demoServer demoConfig createdEnv "oid2" 42 demoRequest
    ⟨201, [("Location", ["http://host/files/xyz789"])]⟩ "http://host/files/xyz789"
    (fun _ => ⟨rfl, by decide⟩) rfl rfl rfl rfl (by decide) (by decide)

theorem create_failure_witness :
    ∃ e ev, demoServer.Create demoConfig badStatusEnv "oid2" 42 demoRequest
      = .returned ("", some e) demoServer ev :=
  (create_failure demoServer demoConfig badStatusEnv "oid2" 42 demoRequest).1 rfl
    (Or.inr ⟨⟨200, []⟩, rfl, Or.inl (by decide)⟩)

theorem create_request_witness :
    httpCalls (demoServer.Create demoConfig createdEnv "oid2" 42 demoRequest).events
        = [createRequest demoServer demoConfig "oid2" 42 demoRequest]
      ∧ (createRequest demoServer demoConfig "oid2" 42 demoRequest).URL
          = demoConfig.TusExtOrigin ++ "/files/"
      ∧ (createRequest demoServer demoConfig "oid2" 42 demoRequest).Header.Get "Upload-Length"
          = "42"
      ∧ ∀ k ∈ ["X-Forwarded-Host", "X-Forwarded-Proto", "X-Forwarded-Port"],
          List.lookup k (createRequest demoServer demoConfig "oid2" 42 demoRequest).Header
              = some [demoRequest.Header.Get k]
            ∧ (createRequest demoServer demoConfig "oid2" 42 demoRequest).Header.Get k
              = demoRequest.Header.Get k :=
  have h := create_request demoServer demoConfig createdEnv "oid2" 42 demoRequest
  ⟨h.2.1 rfl rfl, h.2.2.2.2.1 (fun _ => ⟨rfl, by decide⟩) rfl,
    h.2.2.2.2.2.2.1.trans ((fmtD_eq_decimalRendering 42).symm.trans (by decide)),
    h.2.2.2.2.2.2.2.2.1 (by decide)⟩

theorem start_idempotent_witness :
    demoServer.Start demoConfig createdEnv = .returned () demoServer []
      ∧ ∃ t1 ev1, TusServer.zero.Start demoConfig createdEnv = .returned () t1 ev1
          ∧ t1.Start demoConfig createdEnv = .returned () t1 []
          ∧ execCalls (ev1 ++ (t1.Start demoConfig createdEnv).events)
              = [tusCommand demoConfig (filepathJoin createdEnv.TempDir "lfs_tusserver")]
          ∧ logLines (ev1 ++ (t1.Start demoConfig createdEnv).events)
              = [("Start", "Tus server started")] :=
  ⟨(start_idempotent demoConfig createdEnv).1 demoServer rfl,
    (start_idempotent demoConfig createdEnv).2 TusServer.zero rfl rfl⟩

end LfsTus
